import Mathlib

/-!
Shallow embedding of the `scrypto-escrow` blueprint (`src/src/lib.rs`).

The component `Escrow` holds two custody vaults (`offered_resource`,
`requested_resource_vault`), a stored request descriptor
(`requested_resource : ResourceSpecifier`) and the resource address of its
capability badge (`escrow_nft`).  Its methods `exchange`, `withdraw_resource`
and `cancel_escrow` are embedded as pure functions returning `Except`:
a `.error` mirrors a Rust `assert!`/engine panic and carries the component
state and the by-value bucket argument exactly as they stood at the moment of
the panic (statements are threaded in source order, so this lets us state
atomicity results non-vacuously), while `.ok` carries the new component state
together with everything the method hands back.

Asset amounts (`Decimal`, a fixed-point count of subunits) are embedded as `ℤ`; resource addresses and
non-fungible local ids as `ℕ`; a non-fungible holding as a `Finset ℕ` of local
ids.  Bucket/vault primitives (`take`, `take_non_fungible`, `put`, `take_all`,
`amount`, `contains_non_fungible`) are the asset-transfer collaborators the
spec lists in §6; they are not part of the repository's own source and are
modelled from the spec's description of them.
-/

abbrev ResourceAddress := ℕ

abbrev NonFungibleLocalId := ℕ

/-- Modelled from the spec: the contents held by a bucket or custody slot —
either a fungible decimal quantity or a set of identified non-fungible items.
On the ledger the resource address determines which shape applies; here the
shape is carried by the contents themselves. -/
inductive ResourceContents where
  | fungible (amount : ℤ)
  | nonFungible (ids : Finset ℕ)
deriving DecidableEq

/-- A bucket (or vault: on this embedding both are a resource address plus
contents; `Vault` below is an abbreviation). -/
structure Bucket where
  resource_address : ResourceAddress
  contents : ResourceContents
deriving DecidableEq

abbrev Vault := Bucket

/-- Modelled from the spec: query-balance.  The quantity in a bucket — the
fungible amount, or the number of non-fungible items held. -/
def Bucket.amount (b : Bucket) : ℤ :=
  match b.contents with
  | .fungible a => a
  | .nonFungible s => (s.card : ℤ)

/-- A bucket is empty when its quantity is zero. -/
def Bucket.isEmpty (b : Bucket) : Prop := b.amount = 0

instance (b : Bucket) : Decidable b.isEmpty := by
  unfold Bucket.isEmpty; infer_instance

/-- Well-formed bucket: a fungible holding is never negative (on the ledger a
bucket cannot hold a negative quantity). -/
def Bucket.WF (b : Bucket) : Prop :=
  match b.contents with
  | .fungible a => 0 ≤ a
  | .nonFungible _ => True

/-- Modelled from the spec: withdraw-exact-quantity.  Splits off exactly `amt`
from a fungible bucket, returning `(taken, rest)`; aborts (`none`, an engine
panic) when the bucket is not fungible or `amt` is negative or exceeds the
balance. -/
def Bucket.take (b : Bucket) (amt : ℤ) : Option (Bucket × Bucket) :=
  match b.contents with
  | .fungible a =>
      if 0 ≤ amt ∧ amt ≤ a then
        some (⟨b.resource_address, .fungible amt⟩,
              ⟨b.resource_address, .fungible (a - amt)⟩)
      else none
  | .nonFungible _ => none

/-- Modelled from the spec: query-contains-item. -/
def Bucket.contains_non_fungible (b : Bucket) (i : NonFungibleLocalId) : Bool :=
  match b.contents with
  | .fungible _ => false
  | .nonFungible s => decide (i ∈ s)

/-- Modelled from the spec: withdraw-exact-item.  Splits off exactly the item
`i`, returning `(taken, rest)`; aborts when the bucket is not non-fungible or
does not contain `i`. -/
def Bucket.take_non_fungible (b : Bucket) (i : NonFungibleLocalId) :
    Option (Bucket × Bucket) :=
  match b.contents with
  | .fungible _ => none
  | .nonFungible s =>
      if i ∈ s then
        some (⟨b.resource_address, .nonFungible {i}⟩,
              ⟨b.resource_address, .nonFungible (s.erase i)⟩)
      else none

/-- Modelled from the spec: deposit-all into a vault.  Aborts when the
addresses or content shapes disagree (on the ledger a vault only accepts its
own resource). -/
def Bucket.put (v : Vault) (b : Bucket) : Option Vault :=
  if v.resource_address = b.resource_address then
    match v.contents, b.contents with
    | .fungible a, .fungible a2 =>
        some ⟨v.resource_address, .fungible (a + a2)⟩
    | .nonFungible s, .nonFungible s2 =>
        some ⟨v.resource_address, .nonFungible (s ∪ s2)⟩
    | _, _ => none
  else none

/-- Modelled from the spec: withdraw-all.  Returns the whole contents as a
bucket together with the emptied vault. -/
def Bucket.take_all (b : Bucket) : Bucket × Vault :=
  (⟨b.resource_address, b.contents⟩,
   ⟨b.resource_address,
    match b.contents with
    | .fungible _ => .fungible 0
    | .nonFungible _ => .nonFungible ∅⟩)

/-- The request descriptor stored by the escrow (source: `ResourceSpecifier`). -/
inductive ResourceSpecifier where
  | Fungible (resource_address : ResourceAddress) (amount : ℤ)
  | NonFungible (resource_address : ResourceAddress)
      (non_fungible_local_id : NonFungibleLocalId)
deriving DecidableEq

def ResourceSpecifier.get_resource_address : ResourceSpecifier → ResourceAddress
  | .Fungible a _ => a
  | .NonFungible a _ => a

/-- Modelled from the spec: create-empty custody slot typed to the requested
asset's kind (source: `Vault::new(requested_resource.get_resource_address())`).
On the ledger the address alone determines whether the new vault is fungible;
the specifier's variant mirrors that determination. -/
def ResourceSpecifier.new_empty_vault : ResourceSpecifier → Vault
  | .Fungible a _ => ⟨a, .fungible 0⟩
  | .NonFungible a _ => ⟨a, .nonFungible ∅⟩

/-- The distinct abort causes of the three methods.  The first five correspond
to the five `assert!` messages in the source; `engineAbort` stands for a panic
raised inside a bucket/vault primitive itself (e.g. `take` on a vault of the
wrong shape), which is not one of the source's own precondition checks. -/
inductive EscrowError where
  | wrongResourceAddress
  | insufficientAmount
  | nonFungibleIdNotFound
  | invalidEscrowNft
  | emptyEscrowNftBucket
  | engineAbort
deriving DecidableEq

/-- Persistent component state (source: `struct Escrow`). -/
structure Escrow where
  requested_resource : ResourceSpecifier
  offered_resource : Vault
  requested_resource_vault : Vault
  escrow_nft : ResourceAddress
deriving DecidableEq

/-- Information carried by an aborted call: the abort cause, the component
state and the by-value bucket argument as they stood at the moment of the
panic, and the buckets burned before the panic. -/
structure PanicInfo where
  err : EscrowError
  escrow : Escrow
  arg : Bucket
  burned : List Bucket
deriving DecidableEq

/-- Result of a successful `exchange`: the new component state, the bucket the
method returns (the whole offered slot), and what remains inside the consumed
`bucket_of_resource` argument when the method exits (the excess the spec says
stays with the caller). -/
structure ExchangeOut where
  escrow : Escrow
  returned : Bucket
  bucketRest : Bucket
deriving DecidableEq

/-- Result of a successful `withdraw_resource`/`cancel_escrow`: the new
component state, the bucket the method returns, and the list of buckets it
burned.  The presented badge bucket is consumed by the method; it reappears in
`burned` exactly when the method called `burn` on it, and a method's return
value is the only channel through which a bucket reaches the caller. -/
structure AuthOut where
  escrow : Escrow
  returned : Bucket
  burned : List Bucket
deriving DecidableEq

/-- Source: `Escrow::instantiate_escrow`.  The badge resource address and the
random badge local id are parameters (the source obtains them from the badge
resource builder and `NonFungibleLocalId::random()`).  Returns the component
state and the minted badge bucket. -/
def instantiate_escrow (requested_resource : ResourceSpecifier)
    (offered_resource : Bucket) (badge_address : ResourceAddress)
    (badge_id : NonFungibleLocalId) : Escrow × Bucket :=
  (⟨requested_resource, offered_resource,
    requested_resource.new_empty_vault, badge_address⟩,
   ⟨badge_address, .nonFungible {badge_id}⟩)

/-- Source: `Escrow::exchange`.  Statements in source order: the two asserts of
the matching branch, then `requested_resource_vault.put(bucket.take ...)`, then
`offered_resource.take_all()` as the return value. -/
def Escrow.exchange (e : Escrow) (bucket_of_resource : Bucket) :
    Except PanicInfo ExchangeOut :=
  match e.requested_resource with
  | .Fungible resource_address amt =>
      if bucket_of_resource.resource_address = resource_address then
        if amt ≤ bucket_of_resource.amount then
          match bucket_of_resource.take amt with
          | none => .error ⟨.engineAbort, e, bucket_of_resource, []⟩
          | some (taken, rest) =>
              match e.requested_resource_vault.put taken with
              | none => .error ⟨.engineAbort, e, rest, []⟩
              | some v =>
                  let p := e.offered_resource.take_all
                  .ok ⟨{ e with requested_resource_vault := v,
                                offered_resource := p.2 }, p.1, rest⟩
        else .error ⟨.insufficientAmount, e, bucket_of_resource, []⟩
      else .error ⟨.wrongResourceAddress, e, bucket_of_resource, []⟩
  | .NonFungible resource_address nf_id =>
      if bucket_of_resource.resource_address = resource_address then
        if bucket_of_resource.contains_non_fungible nf_id then
          match bucket_of_resource.take_non_fungible nf_id with
          | none => .error ⟨.engineAbort, e, bucket_of_resource, []⟩
          | some (taken, rest) =>
              match e.requested_resource_vault.put taken with
              | none => .error ⟨.engineAbort, e, rest, []⟩
              | some v =>
                  let p := e.offered_resource.take_all
                  .ok ⟨{ e with requested_resource_vault := v,
                                offered_resource := p.2 }, p.1, rest⟩
        else .error ⟨.nonFungibleIdNotFound, e, bucket_of_resource, []⟩
      else .error ⟨.wrongResourceAddress, e, bucket_of_resource, []⟩

/-- Source: `Escrow::verify_escrow_badge`.  Pure check; `none` means both
asserts pass, `some err` names the failing assert. -/
def Escrow.verify_escrow_badge (e : Escrow) (escrow_nft : Bucket) :
    Option EscrowError :=
  if escrow_nft.resource_address = e.escrow_nft then
    if 0 < escrow_nft.amount then none else some .emptyEscrowNftBucket
  else some .invalidEscrowNft

/-- Source: `Escrow::withdraw_resource`.  Verifies the badge, then returns
`requested_resource_vault.take_all()`.  The badge bucket is consumed: it is
neither burned (`burned = []`) nor part of the return value. -/
def Escrow.withdraw_resource (e : Escrow) (escrow_nft : Bucket) :
    Except PanicInfo AuthOut :=
  match e.verify_escrow_badge escrow_nft with
  | some err => .error ⟨err, e, escrow_nft, []⟩
  | none =>
      let p := e.requested_resource_vault.take_all
      .ok ⟨{ e with requested_resource_vault := p.2 }, p.1, []⟩

/-- Source: `Escrow::cancel_escrow`.  Verifies the badge, burns it, then
returns `offered_resource.take_all()`. -/
def Escrow.cancel_escrow (e : Escrow) (escrow_nft : Bucket) :
    Except PanicInfo AuthOut :=
  match e.verify_escrow_badge escrow_nft with
  | some err => .error ⟨err, e, escrow_nft, []⟩
  | none =>
      let p := e.offered_resource.take_all
      .ok ⟨{ e with offered_resource := p.2 }, p.1, [escrow_nft]⟩

/-- The abort cause of an `exchange` call, if it aborts. -/
def Escrow.exchangeError (e : Escrow) (b : Bucket) : Option EscrowError :=
  match e.exchange b with
  | .error pi => some pi.err
  | .ok _ => none

/-- The abort cause of a `withdraw_resource` call, if it aborts. -/
def Escrow.withdrawError (e : Escrow) (b : Bucket) : Option EscrowError :=
  match e.withdraw_resource b with
  | .error pi => some pi.err
  | .ok _ => none

/-- The abort cause of a `cancel_escrow` call, if it aborts. -/
def Escrow.cancelError (e : Escrow) (b : Bucket) : Option EscrowError :=
  match e.cancel_escrow b with
  | .error pi => some pi.err
  | .ok _ => none

/-- The requested-asset vault agrees with the stored specifier: same address,
matching shape, and (fungible case) a non-negative requested amount.  This
holds of a freshly instantiated escrow and is preserved by the methods. -/
def Escrow.requestedWF (e : Escrow) : Prop :=
  match e.requested_resource with
  | .Fungible a r =>
      0 ≤ r ∧ ∃ c, 0 ≤ c ∧ e.requested_resource_vault = ⟨a, .fungible c⟩
  | .NonFungible a _ =>
      ∃ s, e.requested_resource_vault = ⟨a, .nonFungible s⟩

/-- A bucket presented to `exchange` has the shape its address dictates: if it
carries the requested asset's address, its contents have the specifier's shape
(on the ledger the address determines the shape, so this always holds). -/
def kindConsistent (b : Bucket) (rs : ResourceSpecifier) : Prop :=
  b.resource_address = rs.get_resource_address →
    match rs with
    | .Fungible _ _ => ∃ a2, b.contents = .fungible a2
    | .NonFungible _ _ => ∃ s, b.contents = .nonFungible s


/-- The stored request asks for a non-negative fungible amount (the spec's
data-model invariant; a non-fungible request is always well-formed). -/
def ResourceSpecifier.amountNonneg : ResourceSpecifier → Prop
  | .Fungible _ r => 0 ≤ r
  | .NonFungible _ _ => True

/-- The stored request is non-trivial: a strictly positive fungible amount, or
any non-fungible item. -/
def ResourceSpecifier.nontrivial : ResourceSpecifier → Prop
  | .Fungible _ r => 0 < r
  | .NonFungible _ _ => True

/-- Inductive invariant of an escrow instantiated with request `rs` and badge
address `badgeA`: the stored specifier and badge address are unchanged, the
requested-asset vault agrees with the specifier, and at most one of the two
custody vaults is non-empty. -/
def EscrowInv (rs : ResourceSpecifier) (badgeA : ResourceAddress)
    (e : Escrow) : Prop :=
  e.requested_resource = rs ∧ e.escrow_nft = badgeA ∧ e.requestedWF ∧
  (e.offered_resource.isEmpty ∨ e.requested_resource_vault.isEmpty)

/-- States reachable from `e₀` through successful method calls. -/
inductive Reachable (e₀ : Escrow) : Escrow → Prop where
  | init : Reachable e₀ e₀
  | exchangeOk {e b out} : Reachable e₀ e → e.exchange b = .ok out →
      Reachable e₀ out.escrow
  | withdrawOk {e b out} : Reachable e₀ e → e.withdraw_resource b = .ok out →
      Reachable e₀ out.escrow
  | cancelOk {e b out} : Reachable e₀ e → e.cancel_escrow b = .ok out →
      Reachable e₀ out.escrow


/-- A concrete escrow used by witnesses: requests 100 units of asset 2, offers
a bucket of 5 units of asset 1, badge resource address 7, badge local id 3. -/
def sampleEscrow : Escrow :=
  (instantiate_escrow (.Fungible 2 100) ⟨1, .fungible 5⟩ 7 3).1

/-! ### Helper lemmas about the primitives and method success cases -/

theorem Bucket.take_all_fst (b : Bucket) : b.take_all.1 = b := rfl

theorem Bucket.take_all_snd_isEmpty (b : Bucket) : b.take_all.2.isEmpty := by
  unfold Bucket.take_all Bucket.isEmpty Bucket.amount
  rcases b with ⟨a, c⟩
  cases c <;> simp

theorem exchange_fungible_ok {e : Escrow} {X : ResourceAddress} {R : ℤ}
    (hreq : e.requested_resource = .Fungible X R) {vc : ℤ}
    (hv : e.requested_resource_vault = ⟨X, .fungible vc⟩) {S : ℤ}
    (hR : 0 ≤ R) (hS : R ≤ S) :
    e.exchange ⟨X, .fungible S⟩ =
      .ok ⟨{ e with requested_resource_vault := ⟨X, .fungible (vc + R)⟩,
                    offered_resource := e.offered_resource.take_all.2 },
           e.offered_resource.take_all.1, ⟨X, .fungible (S - R)⟩⟩ := by
  simp only [Escrow.exchange, hreq, hv, Bucket.amount, Bucket.take, Bucket.put]
  simp [hR, hS]

theorem exchange_nonfungible_ok {e : Escrow} {Z : ResourceAddress}
    {i : NonFungibleLocalId} (hreq : e.requested_resource = .NonFungible Z i)
    {vs : Finset ℕ} (hv : e.requested_resource_vault = ⟨Z, .nonFungible vs⟩)
    {ids : Finset ℕ} (hmem : i ∈ ids) :
    e.exchange ⟨Z, .nonFungible ids⟩ =
      .ok ⟨{ e with requested_resource_vault := ⟨Z, .nonFungible (vs ∪ {i})⟩,
                    offered_resource := e.offered_resource.take_all.2 },
           e.offered_resource.take_all.1, ⟨Z, .nonFungible (ids.erase i)⟩⟩ := by
  simp only [Escrow.exchange, hreq, hv, Bucket.contains_non_fungible,
    Bucket.take_non_fungible, Bucket.put]
  simp [hmem]

theorem verify_ok {e : Escrow} {nb : Bucket}
    (haddr : nb.resource_address = e.escrow_nft) (hamt : 0 < nb.amount) :
    e.verify_escrow_badge nb = none := by
  simp [Escrow.verify_escrow_badge, haddr, hamt]

theorem withdraw_ok {e : Escrow} {nb : Bucket}
    (haddr : nb.resource_address = e.escrow_nft) (hamt : 0 < nb.amount) :
    e.withdraw_resource nb =
      .ok ⟨{ e with requested_resource_vault := e.requested_resource_vault.take_all.2 },
           e.requested_resource_vault.take_all.1, []⟩ := by
  simp [Escrow.withdraw_resource, verify_ok haddr hamt]

theorem cancel_ok {e : Escrow} {nb : Bucket}
    (haddr : nb.resource_address = e.escrow_nft) (hamt : 0 < nb.amount) :
    e.cancel_escrow nb =
      .ok ⟨{ e with offered_resource := e.offered_resource.take_all.2 },
           e.offered_resource.take_all.1, [nb]⟩ := by
  simp [Escrow.cancel_escrow, verify_ok haddr hamt]

/-! ### C1 -/

/-- C1: for every `exchange` (satisfy) call whose bucket meets the checked
preconditions on a freshly instantiated escrow: in the fungible case with
offered bucket `offered`, requested amount `R` and supplied amount `S ≥ R`,
the requested-asset vault ends up holding exactly `R`, the consumed supplied
bucket retains `S - R` for the caller, the caller is handed back the full
original offer, and the offered-asset vault is left empty; in the non-fungible
case only the requested item `nfId` moves into the requested-asset vault,
every other item of the supplied bucket stays with the caller, and the caller
is handed the full offer. -/
theorem C1_exchange_moves_exactly_the_request :
    (∀ (X badgeA : ResourceAddress) (badgeId : NonFungibleLocalId)
        (R S : ℤ) (offered : Bucket), 0 ≤ R → R ≤ S →
      ∃ out,
        ((instantiate_escrow (.Fungible X R) offered badgeA badgeId).1).exchange
            ⟨X, .fungible S⟩ = .ok out ∧
        out.escrow.requested_resource_vault = ⟨X, .fungible R⟩ ∧
        out.bucketRest = ⟨X, .fungible (S - R)⟩ ∧
        out.returned = offered ∧
        out.escrow.offered_resource.isEmpty) ∧
    (∀ (Z badgeA : ResourceAddress) (badgeId nfId : NonFungibleLocalId)
        (ids : Finset ℕ) (offered : Bucket), nfId ∈ ids →
      ∃ out,
        ((instantiate_escrow (.NonFungible Z nfId) offered badgeA badgeId).1).exchange
            ⟨Z, .nonFungible ids⟩ = .ok out ∧
        out.escrow.requested_resource_vault = ⟨Z, .nonFungible {nfId}⟩ ∧
        out.bucketRest = ⟨Z, .nonFungible (ids.erase nfId)⟩ ∧
        out.returned = offered ∧
        out.escrow.offered_resource.isEmpty) := by
  constructor
  · intro X badgeA badgeId R S offered hR hS
    refine ⟨_, exchange_fungible_ok rfl rfl hR hS, ?_, rfl, Bucket.take_all_fst _,
      Bucket.take_all_snd_isEmpty _⟩
    simp
  · intro Z badgeA badgeId nfId ids offered hmem
    refine ⟨_, exchange_nonfungible_ok rfl rfl hmem, ?_, rfl, Bucket.take_all_fst _,
      Bucket.take_all_snd_isEmpty _⟩
    simp

/-- Witness for C1 at concrete inputs (the spec's §8 scenario: request 100 of
asset 2, offer 5 of asset 1, supply 150). -/
theorem C1_exchange_moves_exactly_the_request_witness :
    ((0:ℤ) ≤ 100 ∧ (100:ℤ) ≤ 150 ∧
      ∃ out,
        ((instantiate_escrow (.Fungible 2 100) ⟨1, .fungible 5⟩ 7 3).1).exchange
            ⟨2, .fungible 150⟩ = .ok out ∧
        out.escrow.requested_resource_vault = ⟨2, .fungible 100⟩ ∧
        out.bucketRest = ⟨2, .fungible (150 - 100)⟩ ∧
        out.returned = ⟨1, .fungible 5⟩ ∧
        out.escrow.offered_resource.isEmpty) ∧
    ((9:ℕ) ∈ ({4, 9, 11} : Finset ℕ) ∧
      ∃ out,
        ((instantiate_escrow (.NonFungible 2 9) ⟨1, .fungible 5⟩ 7 3).1).exchange
            ⟨2, .nonFungible {4, 9, 11}⟩ = .ok out ∧
        out.escrow.requested_resource_vault = ⟨2, .nonFungible {9}⟩ ∧
        out.bucketRest = ⟨2, .nonFungible (Finset.erase {4, 9, 11} 9)⟩ ∧
        out.returned = ⟨1, .fungible 5⟩ ∧
        out.escrow.offered_resource.isEmpty) :=
  ⟨⟨by decide, by decide,
    C1_exchange_moves_exactly_the_request.1 2 7 3 100 150 ⟨1, .fungible 5⟩
      (by decide) (by decide)⟩,
   ⟨by decide,
    C1_exchange_moves_exactly_the_request.2 2 7 3 9 {4, 9, 11} ⟨1, .fungible 5⟩
      (by decide)⟩⟩

theorem withdrawError_eq_verify (e : Escrow) (nb : Bucket) :
    e.withdrawError nb = e.verify_escrow_badge nb := by
  unfold Escrow.withdrawError Escrow.withdraw_resource
  cases e.verify_escrow_badge nb <;> simp

theorem cancelError_eq_verify (e : Escrow) (nb : Bucket) :
    e.cancelError nb = e.verify_escrow_badge nb := by
  unfold Escrow.cancelError Escrow.cancel_escrow
  cases e.verify_escrow_badge nb <;> simp

theorem Bucket.WF.amount_nonneg {b : Bucket} (h : b.WF) : 0 ≤ b.amount := by
  unfold Bucket.WF at h
  unfold Bucket.amount
  rcases b with ⟨a, c⟩
  cases c with
  | fungible q => exact h
  | nonFungible s => exact Int.natCast_nonneg _


theorem exchangeError_eval (e : Escrow) (b : Bucket) (hWF : e.requestedWF)
    (hkind : kindConsistent b e.requested_resource) :
    e.exchangeError b =
      match e.requested_resource with
      | .Fungible X R =>
          if b.resource_address = X then
            if R ≤ b.amount then none else some .insufficientAmount
          else some .wrongResourceAddress
      | .NonFungible Z i =>
          if b.resource_address = Z then
            if b.contains_non_fungible i then none
            else some .nonFungibleIdNotFound
          else some .wrongResourceAddress := by
  unfold Escrow.requestedWF at hWF
  unfold kindConsistent at hkind
  rcases b with ⟨ba, bc⟩
  cases hreq : e.requested_resource with
  | Fungible X R =>
      rw [hreq] at hWF hkind
      obtain ⟨hR, c, hc, hv⟩ := hWF
      by_cases hb : ba = X
      · obtain ⟨s, hs⟩ := hkind (by
          simpa [ResourceSpecifier.get_resource_address] using hb)
        simp only at hs
        subst hs hb
        by_cases hRS : R ≤ Bucket.amount ⟨ba, .fungible s⟩
        · rw [Bucket.amount] at hRS
          simp only [Escrow.exchangeError,
            exchange_fungible_ok hreq hv hR hRS]
          simp [Bucket.amount, hRS]
        · rw [Bucket.amount] at hRS
          simp only [Escrow.exchangeError, Escrow.exchange, hreq]
          simp [Bucket.amount, hRS]
      · simp only [Escrow.exchangeError, Escrow.exchange, hreq]
        simp [hb]
  | NonFungible Z i =>
      rw [hreq] at hWF hkind
      obtain ⟨vs, hv⟩ := hWF
      by_cases hb : ba = Z
      · obtain ⟨s, hs⟩ := hkind (by
          simpa [ResourceSpecifier.get_resource_address] using hb)
        simp only at hs
        subst hs hb
        by_cases hmem : i ∈ s
        · simp only [Escrow.exchangeError,
            exchange_nonfungible_ok hreq hv hmem]
          simp [Bucket.contains_non_fungible, hmem]
        · simp only [Escrow.exchangeError, Escrow.exchange, hreq]
          simp [Bucket.contains_non_fungible, hmem]
      · simp only [Escrow.exchangeError, Escrow.exchange, hreq]
        simp [hb]

/-- C2: each operation aborts exactly under its specified error condition.
On a well-formed escrow and buckets, `exchange` aborts with the wrong-asset
error iff the supplied bucket's address differs from the requested one, with
the insufficient-amount error iff the address matches a fungible request whose
amount exceeds the supplied quantity, and with the missing-item error iff the
address matches a non-fungible request whose item the bucket lacks; `withdraw`
(and identically `cancel`) aborts with the invalid-token error iff the badge
bucket's address differs from the escrow's badge address and with the
empty-bucket error iff the address matches but the bucket is empty; in all
other cases the operations succeed. -/
theorem C2_error_iff :
    ∀ (e : Escrow) (b nb : Bucket), e.requestedWF →
      kindConsistent b e.requested_resource → nb.WF →
      (e.exchangeError b = some .wrongResourceAddress ↔
        b.resource_address ≠ e.requested_resource.get_resource_address) ∧
      (e.exchangeError b = some .insufficientAmount ↔
        b.resource_address = e.requested_resource.get_resource_address ∧
        ∃ X R, e.requested_resource = .Fungible X R ∧ b.amount < R) ∧
      (e.exchangeError b = some .nonFungibleIdNotFound ↔
        b.resource_address = e.requested_resource.get_resource_address ∧
        ∃ Z i, e.requested_resource = .NonFungible Z i ∧
          b.contains_non_fungible i = false) ∧
      (e.exchangeError b = none ↔
        ¬ (b.resource_address ≠ e.requested_resource.get_resource_address) ∧
        ¬ (∃ X R, e.requested_resource = .Fungible X R ∧ b.amount < R) ∧
        ¬ (∃ Z i, e.requested_resource = .NonFungible Z i ∧
            b.contains_non_fungible i = false)) ∧
      (e.withdrawError nb = some .invalidEscrowNft ↔
        nb.resource_address ≠ e.escrow_nft) ∧
      (e.withdrawError nb = some .emptyEscrowNftBucket ↔
        nb.resource_address = e.escrow_nft ∧ nb.isEmpty) ∧
      (e.withdrawError nb = none ↔
        nb.resource_address = e.escrow_nft ∧ ¬ nb.isEmpty) ∧
      e.cancelError nb = e.withdrawError nb := by
  intro e b nb hWF hkind hnb
  have hverify :
      (e.verify_escrow_badge nb = some .invalidEscrowNft ↔
        nb.resource_address ≠ e.escrow_nft) ∧
      (e.verify_escrow_badge nb = some .emptyEscrowNftBucket ↔
        nb.resource_address = e.escrow_nft ∧ nb.isEmpty) ∧
      (e.verify_escrow_badge nb = none ↔
        nb.resource_address = e.escrow_nft ∧ ¬ nb.isEmpty) := by
    have hge := Bucket.WF.amount_nonneg hnb
    unfold Escrow.verify_escrow_badge Bucket.isEmpty
    by_cases haddr : nb.resource_address = e.escrow_nft <;>
      by_cases hamt : 0 < nb.amount <;> simp [haddr, hamt] <;> omega
  have hx := exchangeError_eval e b hWF hkind
  obtain ⟨hv1, hv2, hv3⟩ := hverify
  rw [withdrawError_eq_verify, cancelError_eq_verify]
  refine ⟨?_, ?_, ?_, ?_, hv1, hv2, hv3, rfl⟩ <;>
    rcases hreq : e.requested_resource with ⟨X, R⟩ | ⟨Z, i⟩ <;>
      rw [hreq] at hx <;> simp only at hx <;>
        rw [hx, ResourceSpecifier.get_resource_address] <;>
          split_ifs with h1 h2 <;>
            simp_all [ResourceSpecifier.get_resource_address] <;>
              first
              | omega
              | exact ⟨_, _, ⟨rfl, rfl⟩, by assumption⟩

/-- Witness for C2 at concrete inputs. -/
theorem C2_error_iff_witness :
    sampleEscrow.requestedWF ∧
    kindConsistent ⟨2, .fungible 150⟩ sampleEscrow.requested_resource ∧
    Bucket.WF ⟨7, .nonFungible {3}⟩ ∧
    ((sampleEscrow.exchangeError ⟨2, .fungible 150⟩ = some .wrongResourceAddress ↔
        Bucket.resource_address ⟨2, .fungible 150⟩ ≠
          sampleEscrow.requested_resource.get_resource_address) ∧
      (sampleEscrow.exchangeError ⟨2, .fungible 150⟩ = some .insufficientAmount ↔
        Bucket.resource_address ⟨2, .fungible 150⟩ =
          sampleEscrow.requested_resource.get_resource_address ∧
        ∃ X R, sampleEscrow.requested_resource = .Fungible X R ∧
          Bucket.amount ⟨2, .fungible 150⟩ < R) ∧
      (sampleEscrow.exchangeError ⟨2, .fungible 150⟩ = some .nonFungibleIdNotFound ↔
        Bucket.resource_address ⟨2, .fungible 150⟩ =
          sampleEscrow.requested_resource.get_resource_address ∧
        ∃ Z i, sampleEscrow.requested_resource = .NonFungible Z i ∧
          Bucket.contains_non_fungible ⟨2, .fungible 150⟩ i = false) ∧
      (sampleEscrow.exchangeError ⟨2, .fungible 150⟩ = none ↔
        ¬ (Bucket.resource_address ⟨2, .fungible 150⟩ ≠
            sampleEscrow.requested_resource.get_resource_address) ∧
        ¬ (∃ X R, sampleEscrow.requested_resource = .Fungible X R ∧
            Bucket.amount ⟨2, .fungible 150⟩ < R) ∧
        ¬ (∃ Z i, sampleEscrow.requested_resource = .NonFungible Z i ∧
            Bucket.contains_non_fungible ⟨2, .fungible 150⟩ i = false)) ∧
      (sampleEscrow.withdrawError ⟨7, .nonFungible {3}⟩ = some .invalidEscrowNft ↔
        Bucket.resource_address ⟨7, .nonFungible {3}⟩ ≠ sampleEscrow.escrow_nft) ∧
      (sampleEscrow.withdrawError ⟨7, .nonFungible {3}⟩ = some .emptyEscrowNftBucket ↔
        Bucket.resource_address ⟨7, .nonFungible {3}⟩ = sampleEscrow.escrow_nft ∧
        Bucket.isEmpty ⟨7, .nonFungible {3}⟩) ∧
      (sampleEscrow.withdrawError ⟨7, .nonFungible {3}⟩ = none ↔
        Bucket.resource_address ⟨7, .nonFungible {3}⟩ = sampleEscrow.escrow_nft ∧
        ¬ Bucket.isEmpty ⟨7, .nonFungible {3}⟩) ∧
      sampleEscrow.cancelError ⟨7, .nonFungible {3}⟩ =
        sampleEscrow.withdrawError ⟨7, .nonFungible {3}⟩) :=
  have hWF : sampleEscrow.requestedWF := ⟨by decide, 0, by decide, rfl⟩
  have hkind : kindConsistent ⟨2, .fungible 150⟩ sampleEscrow.requested_resource :=
    fun _ => ⟨150, rfl⟩
  have hnb : Bucket.WF ⟨7, .nonFungible {3}⟩ := trivial
  ⟨hWF, hkind, hnb,
   C2_error_iff sampleEscrow ⟨2, .fungible 150⟩ ⟨7, .nonFungible {3}⟩ hWF hkind hnb⟩

/-- C3: every failed precondition check aborts the call with the escrow state
(both vaults, the stored specifier and the badge address) unchanged and the
presented bucket neither debited nor burned.  Formally: whenever `exchange`,
`withdraw_resource` or `cancel_escrow` returns an error whose cause is one of
the source's own `assert!` checks (anything but `engineAbort`), the state and
argument carried at the panic point equal the initial ones and nothing was
burned — all validation runs before any custody mutation. -/
theorem C3_failed_checks_leave_state_unchanged :
    ∀ (e : Escrow) (b : Bucket) (pI : PanicInfo),
      (e.exchange b = .error pI → pI.err ≠ .engineAbort →
        pI.escrow = e ∧ pI.arg = b ∧ pI.burned = []) ∧
      (e.withdraw_resource b = .error pI →
        pI.escrow = e ∧ pI.arg = b ∧ pI.burned = []) ∧
      (e.cancel_escrow b = .error pI →
        pI.escrow = e ∧ pI.arg = b ∧ pI.burned = []) := by
  intro e b pI
  refine ⟨?_, ?_, ?_⟩
  · intro h hne
    unfold Escrow.exchange at h
    split at h <;> split_ifs at h <;>
      (try split at h) <;> (try split at h) <;>
        first
        | exact Except.noConfusion h
        | (injection h with h2; rw [← h2] at hne ⊢; simp_all)
  · intro h
    unfold Escrow.withdraw_resource at h
    split at h <;>
      first
      | exact Except.noConfusion h
      | (injection h with h2; rw [← h2]; simp_all)
  · intro h
    unfold Escrow.cancel_escrow at h
    split at h <;>
      first
      | exact Except.noConfusion h
      | (injection h with h2; rw [← h2]; simp_all)

/-- Witness for C3: a wrong-address exchange call on the sample escrow. -/
theorem C3_failed_checks_leave_state_unchanged_witness :
    sampleEscrow.exchange ⟨3, .fungible 150⟩ =
      .error ⟨.wrongResourceAddress, sampleEscrow, ⟨3, .fungible 150⟩, []⟩ ∧
    EscrowError.wrongResourceAddress ≠ EscrowError.engineAbort ∧
    (PanicInfo.escrow ⟨.wrongResourceAddress, sampleEscrow, ⟨3, .fungible 150⟩, []⟩ =
        sampleEscrow ∧
      PanicInfo.arg ⟨.wrongResourceAddress, sampleEscrow, ⟨3, .fungible 150⟩, []⟩ =
        ⟨3, .fungible 150⟩ ∧
      PanicInfo.burned ⟨.wrongResourceAddress, sampleEscrow, ⟨3, .fungible 150⟩, []⟩ =
        []) :=
  ⟨rfl, by decide,
   (C3_failed_checks_leave_state_unchanged sampleEscrow ⟨3, .fungible 150⟩
      ⟨.wrongResourceAddress, sampleEscrow, ⟨3, .fungible 150⟩, []⟩).1 rfl
      (by decide)⟩

theorem exchange_ok_shape {e : Escrow} {b : Bucket} {out : ExchangeOut}
    (h : e.exchange b = .ok out) :
    out.returned = e.offered_resource.take_all.1 ∧
    out.escrow.offered_resource = e.offered_resource.take_all.2 ∧
    out.escrow.requested_resource = e.requested_resource ∧
    out.escrow.escrow_nft = e.escrow_nft ∧
    ∃ taken,
      Bucket.put e.requested_resource_vault taken =
        some out.escrow.requested_resource_vault ∧
      ((∃ X R, e.requested_resource = .Fungible X R ∧
          b.take R = some (taken, out.bucketRest)) ∨
       (∃ Z i, e.requested_resource = .NonFungible Z i ∧
          b.take_non_fungible i = some (taken, out.bucketRest))) := by
  unfold Escrow.exchange at h
  split at h <;> split_ifs at h <;>
    (try split at h) <;> (try split at h) <;>
      first
      | exact Except.noConfusion h
      | (injection h with h2; subst h2
         refine ⟨rfl, rfl, rfl, rfl, _, by assumption, ?_⟩
         first
         | exact Or.inl ⟨_, _, by assumption, by assumption⟩
         | exact Or.inr ⟨_, _, by assumption, by assumption⟩)

theorem withdraw_ok_shape {e : Escrow} {nb : Bucket} {w : AuthOut}
    (h : e.withdraw_resource nb = .ok w) :
    w.returned = e.requested_resource_vault.take_all.1 ∧
    w.escrow =
      { e with requested_resource_vault := e.requested_resource_vault.take_all.2 } ∧
    w.burned = [] := by
  unfold Escrow.withdraw_resource at h
  split at h <;>
    first
    | exact Except.noConfusion h
    | (injection h with h2; subst h2; exact ⟨rfl, rfl, rfl⟩)

theorem cancel_ok_shape {e : Escrow} {nb : Bucket} {c : AuthOut}
    (h : e.cancel_escrow nb = .ok c) :
    c.returned = e.offered_resource.take_all.1 ∧
    c.escrow = { e with offered_resource := e.offered_resource.take_all.2 } ∧
    c.burned = [nb] := by
  unfold Escrow.cancel_escrow at h
  split at h <;>
    first
    | exact Except.noConfusion h
    | (injection h with h2; subst h2; exact ⟨rfl, rfl, rfl⟩)

/-- C4: a withdraw call presenting the escrow's own (non-empty, correct-kind)
badge after a successful satisfy returns exactly what the satisfy call placed
into the requested-asset vault (the requested fungible amount, or the single
requested item), leaves that vault empty afterwards, and burns nothing — the
presented badge is not destroyed by withdrawal. -/
theorem C4_withdraw_returns_what_satisfy_placed :
    (∀ (X badgeA : ResourceAddress) (badgeId : NonFungibleLocalId)
        (R S : ℤ) (offered : Bucket), 0 ≤ R → R ≤ S →
      ∃ out w,
        ((instantiate_escrow (.Fungible X R) offered badgeA badgeId).1).exchange
            ⟨X, .fungible S⟩ = .ok out ∧
        out.escrow.withdraw_resource
            ((instantiate_escrow (.Fungible X R) offered badgeA badgeId).2) =
          .ok w ∧
        w.returned = ⟨X, .fungible R⟩ ∧
        w.escrow.requested_resource_vault.isEmpty ∧
        w.burned = []) ∧
    (∀ (Z badgeA : ResourceAddress) (badgeId nfId : NonFungibleLocalId)
        (ids : Finset ℕ) (offered : Bucket), nfId ∈ ids →
      ∃ out w,
        ((instantiate_escrow (.NonFungible Z nfId) offered badgeA badgeId).1).exchange
            ⟨Z, .nonFungible ids⟩ = .ok out ∧
        out.escrow.withdraw_resource
            ((instantiate_escrow (.NonFungible Z nfId) offered badgeA badgeId).2) =
          .ok w ∧
        w.returned = ⟨Z, .nonFungible {nfId}⟩ ∧
        w.escrow.requested_resource_vault.isEmpty ∧
        w.burned = []) := by
  constructor
  · intro X badgeA badgeId R S offered hR hS
    refine ⟨_, _, exchange_fungible_ok rfl rfl hR hS,
      withdraw_ok rfl (by simp [Bucket.amount, instantiate_escrow]), ?_, ?_, rfl⟩
    · simp [Bucket.take_all]
    · exact Bucket.take_all_snd_isEmpty _
  · intro Z badgeA badgeId nfId ids offered hmem
    refine ⟨_, _, exchange_nonfungible_ok rfl rfl hmem,
      withdraw_ok rfl (by simp [Bucket.amount, instantiate_escrow]), ?_, ?_, rfl⟩
    · simp [Bucket.take_all]
    · exact Bucket.take_all_snd_isEmpty _

/-- C5: every cancel call presenting a non-empty bucket of the escrow's badge
kind burns the entire presented bucket and returns the entire contents of the
offered-asset vault, leaving it empty; on a freshly instantiated escrow (before
any satisfaction) the returned bucket is exactly the originally offered one. -/
theorem C5_cancel_burns_badge_and_returns_offer :
    (∀ (e : Escrow) (nb : Bucket),
        nb.resource_address = e.escrow_nft → 0 < nb.amount →
      ∃ c, e.cancel_escrow nb = .ok c ∧ c.burned = [nb] ∧
        c.returned = e.offered_resource ∧
        c.escrow.offered_resource.isEmpty) ∧
    (∀ (rs : ResourceSpecifier) (offered : Bucket) (badgeA : ResourceAddress)
        (badgeId : NonFungibleLocalId),
      ∃ c, ((instantiate_escrow rs offered badgeA badgeId).1).cancel_escrow
            ((instantiate_escrow rs offered badgeA badgeId).2) = .ok c ∧
        c.burned = [(instantiate_escrow rs offered badgeA badgeId).2] ∧
        c.returned = offered ∧
        c.escrow.offered_resource.isEmpty) := by
  constructor
  · intro e nb haddr hamt
    exact ⟨_, cancel_ok haddr hamt, rfl, Bucket.take_all_fst _,
      Bucket.take_all_snd_isEmpty _⟩
  · intro rs offered badgeA badgeId
    exact ⟨_, cancel_ok rfl (by simp [Bucket.amount, instantiate_escrow]), rfl,
      Bucket.take_all_fst _, Bucket.take_all_snd_isEmpty _⟩

/-- C6: calls that find their relevant vault empty succeed with an empty
bucket instead of failing: a second satisfy after a successful one returns an
empty bucket (the offered vault is already empty); withdraw with a valid badge
before any satisfaction returns an empty bucket (the requested vault is still
empty); cancel after a satisfaction returns an empty bucket while still
burning the presented badge. -/
theorem C6_empty_slots_yield_empty_buckets :
    (∀ (e : Escrow) (b : Bucket) (out : ExchangeOut) (b2 : Bucket)
        (out2 : ExchangeOut),
      e.exchange b = .ok out → out.escrow.exchange b2 = .ok out2 →
      out2.returned.isEmpty) ∧
    (∀ (rs : ResourceSpecifier) (offered : Bucket) (badgeA : ResourceAddress)
        (badgeId : NonFungibleLocalId) (nb : Bucket),
      nb.resource_address = badgeA → 0 < nb.amount →
      ∃ w, ((instantiate_escrow rs offered badgeA badgeId).1).withdraw_resource nb =
          .ok w ∧ w.returned.isEmpty) ∧
    (∀ (e : Escrow) (b : Bucket) (out : ExchangeOut) (nb : Bucket) (c : AuthOut),
      e.exchange b = .ok out → out.escrow.cancel_escrow nb = .ok c →
      c.returned.isEmpty ∧ c.burned = [nb]) := by
  refine ⟨?_, ?_, ?_⟩
  · intro e b out b2 out2 h1 h2
    have hempty : out.escrow.offered_resource.isEmpty :=
      (exchange_ok_shape h1).2.1 ▸ Bucket.take_all_snd_isEmpty _
    have hret := (exchange_ok_shape h2).1
    rw [hret, Bucket.take_all_fst]
    exact hempty
  · intro rs offered badgeA badgeId nb haddr hamt
    refine ⟨_, withdraw_ok haddr hamt, ?_⟩
    rw [Bucket.take_all_fst]
    rcases rs with ⟨a, r⟩ | ⟨a, i⟩ <;> simp [instantiate_escrow,
      ResourceSpecifier.new_empty_vault, Bucket.isEmpty, Bucket.amount]
  · intro e b out nb c h1 h2
    have hempty : out.escrow.offered_resource.isEmpty :=
      (exchange_ok_shape h1).2.1 ▸ Bucket.take_all_snd_isEmpty _
    obtain ⟨hret, _, hburn⟩ := cancel_ok_shape h2
    rw [hret, Bucket.take_all_fst]
    exact ⟨hempty, hburn⟩

/-- Witness for C4 at concrete inputs. -/
theorem C4_withdraw_returns_what_satisfy_placed_witness :
    ((0:ℤ) ≤ 100 ∧ (100:ℤ) ≤ 150 ∧
      ∃ out w,
        ((instantiate_escrow (.Fungible 2 100) ⟨1, .fungible 5⟩ 7 3).1).exchange
            ⟨2, .fungible 150⟩ = .ok out ∧
        out.escrow.withdraw_resource
            ((instantiate_escrow (.Fungible 2 100) ⟨1, .fungible 5⟩ 7 3).2) =
          .ok w ∧
        w.returned = ⟨2, .fungible 100⟩ ∧
        w.escrow.requested_resource_vault.isEmpty ∧
        w.burned = []) ∧
    ((9:ℕ) ∈ ({4, 9} : Finset ℕ) ∧
      ∃ out w,
        ((instantiate_escrow (.NonFungible 2 9) ⟨1, .fungible 5⟩ 7 3).1).exchange
            ⟨2, .nonFungible {4, 9}⟩ = .ok out ∧
        out.escrow.withdraw_resource
            ((instantiate_escrow (.NonFungible 2 9) ⟨1, .fungible 5⟩ 7 3).2) =
          .ok w ∧
        w.returned = ⟨2, .nonFungible {9}⟩ ∧
        w.escrow.requested_resource_vault.isEmpty ∧
        w.burned = []) :=
  ⟨⟨by decide, by decide,
    C4_withdraw_returns_what_satisfy_placed.1 2 7 3 100 150 ⟨1, .fungible 5⟩
      (by decide) (by decide)⟩,
   ⟨by decide,
    C4_withdraw_returns_what_satisfy_placed.2 2 7 3 9 {4, 9} ⟨1, .fungible 5⟩
      (by decide)⟩⟩

/-- Witness for C5 at concrete inputs. -/
theorem C5_cancel_burns_badge_and_returns_offer_witness :
    (Bucket.resource_address ⟨7, .nonFungible {3}⟩ = sampleEscrow.escrow_nft ∧
      0 < Bucket.amount ⟨7, .nonFungible {3}⟩ ∧
      ∃ c, sampleEscrow.cancel_escrow ⟨7, .nonFungible {3}⟩ = .ok c ∧
        c.burned = [⟨7, .nonFungible {3}⟩] ∧
        c.returned = sampleEscrow.offered_resource ∧
        c.escrow.offered_resource.isEmpty) ∧
    (∃ c, ((instantiate_escrow (.NonFungible 2 9) ⟨1, .fungible 5⟩ 7 3).1).cancel_escrow
          ((instantiate_escrow (.NonFungible 2 9) ⟨1, .fungible 5⟩ 7 3).2) = .ok c ∧
      c.burned = [(instantiate_escrow (.NonFungible 2 9) ⟨1, .fungible 5⟩ 7 3).2] ∧
      c.returned = ⟨1, .fungible 5⟩ ∧
      c.escrow.offered_resource.isEmpty) :=
  ⟨⟨by decide, by decide,
    C5_cancel_burns_badge_and_returns_offer.1 sampleEscrow ⟨7, .nonFungible {3}⟩
      (by decide) (by decide)⟩,
   C5_cancel_burns_badge_and_returns_offer.2 (.NonFungible 2 9) ⟨1, .fungible 5⟩ 7 3⟩

/-- Witness for C6: a concrete double exchange, an early withdraw, and a
cancel after satisfaction. -/
theorem C6_empty_slots_yield_empty_buckets_witness :
    (∃ out out2, sampleEscrow.exchange ⟨2, .fungible 150⟩ = .ok out ∧
      out.escrow.exchange ⟨2, .fungible 150⟩ = .ok out2 ∧
      out2.returned.isEmpty) ∧
    (Bucket.resource_address ⟨7, .nonFungible {3}⟩ = 7 ∧
      0 < Bucket.amount ⟨7, .nonFungible {3}⟩ ∧
      ∃ w, sampleEscrow.withdraw_resource ⟨7, .nonFungible {3}⟩ = .ok w ∧
        w.returned.isEmpty) ∧
    (∃ out c, sampleEscrow.exchange ⟨2, .fungible 150⟩ = .ok out ∧
      out.escrow.cancel_escrow ⟨7, .nonFungible {3}⟩ = .ok c ∧
      c.returned.isEmpty ∧ c.burned = [⟨7, .nonFungible {3}⟩]) := by
  refine
    ⟨⟨⟨⟨.Fungible 2 100, ⟨1, .fungible 0⟩, ⟨2, .fungible 100⟩, 7⟩,
       ⟨1, .fungible 5⟩, ⟨2, .fungible 50⟩⟩,
      ⟨⟨.Fungible 2 100, ⟨1, .fungible 0⟩, ⟨2, .fungible 200⟩, 7⟩,
       ⟨1, .fungible 0⟩, ⟨2, .fungible 50⟩⟩, rfl, rfl,
      C6_empty_slots_yield_empty_buckets.1 sampleEscrow ⟨2, .fungible 150⟩ _
        ⟨2, .fungible 150⟩ _ rfl rfl⟩,
     ⟨rfl, by decide, ?_⟩,
     ⟨⟨⟨.Fungible 2 100, ⟨1, .fungible 0⟩, ⟨2, .fungible 100⟩, 7⟩,
       ⟨1, .fungible 5⟩, ⟨2, .fungible 50⟩⟩,
      ⟨⟨.Fungible 2 100, ⟨1, .fungible 0⟩, ⟨2, .fungible 100⟩, 7⟩,
       ⟨1, .fungible 0⟩, [⟨7, .nonFungible {3}⟩]⟩, rfl, rfl,
      C6_empty_slots_yield_empty_buckets.2.2 sampleEscrow ⟨2, .fungible 150⟩ _
        ⟨7, .nonFungible {3}⟩ _ rfl rfl⟩⟩
  exact C6_empty_slots_yield_empty_buckets.2.1 (.Fungible 2 100) ⟨1, .fungible 5⟩
    7 3 ⟨7, .nonFungible {3}⟩ rfl (by decide)

theorem take_eq_some {b : Bucket} {amt : ℤ} {taken rest : Bucket}
    (h : b.take amt = some (taken, rest)) :
    ∃ s, b.contents = .fungible s ∧ 0 ≤ amt ∧ amt ≤ s ∧
      taken = ⟨b.resource_address, .fungible amt⟩ ∧
      rest = ⟨b.resource_address, .fungible (s - amt)⟩ := by
  unfold Bucket.take at h
  rcases b with ⟨ba, bc⟩
  cases bc with
  | fungible a =>
      simp only at h
      split_ifs at h with hc
      simp only [Option.some.injEq, Prod.mk.injEq] at h
      exact ⟨a, rfl, hc.1, hc.2, h.1.symm, h.2.symm⟩
  | nonFungible s => exact Option.noConfusion h

theorem take_nf_eq_some {b : Bucket} {i : NonFungibleLocalId} {taken rest : Bucket}
    (h : b.take_non_fungible i = some (taken, rest)) :
    ∃ s, b.contents = .nonFungible s ∧ i ∈ s ∧
      taken = ⟨b.resource_address, .nonFungible {i}⟩ ∧
      rest = ⟨b.resource_address, .nonFungible (s.erase i)⟩ := by
  unfold Bucket.take_non_fungible at h
  rcases b with ⟨ba, bc⟩
  cases bc with
  | fungible a => exact Option.noConfusion h
  | nonFungible s =>
      simp only at h
      split_ifs at h with hc
      simp only [Option.some.injEq, Prod.mk.injEq] at h
      exact ⟨s, rfl, hc, h.1.symm, h.2.symm⟩

theorem put_eq_some {v b v' : Bucket} (h : Bucket.put v b = some v') :
    v.resource_address = b.resource_address ∧
    ((∃ a a2, v.contents = .fungible a ∧ b.contents = .fungible a2 ∧
        v' = ⟨v.resource_address, .fungible (a + a2)⟩) ∨
     (∃ s s2, v.contents = .nonFungible s ∧ b.contents = .nonFungible s2 ∧
        v' = ⟨v.resource_address, .nonFungible (s ∪ s2)⟩)) := by
  unfold Bucket.put at h
  split_ifs at h with ha
  refine ⟨ha, ?_⟩
  rcases v with ⟨va, vc⟩
  rcases b with ⟨bb, bc⟩
  cases vc <;> cases bc <;> simp_all

theorem inv_init {rs : ResourceSpecifier} (offered : Bucket)
    (badgeA : ResourceAddress) (badgeId : NonFungibleLocalId)
    (hA : rs.amountNonneg) :
    EscrowInv rs badgeA (instantiate_escrow rs offered badgeA badgeId).1 := by
  rcases hrs : rs with ⟨a, r⟩ | ⟨a, i⟩
  · refine ⟨rfl, rfl, ⟨?_, 0, le_refl 0, rfl⟩, Or.inr ?_⟩
    · rw [hrs] at hA; exact hA
    · simp [instantiate_escrow, ResourceSpecifier.new_empty_vault,
        Bucket.isEmpty, Bucket.amount]
  · refine ⟨rfl, rfl, ⟨∅, rfl⟩, Or.inr ?_⟩
    simp [instantiate_escrow, ResourceSpecifier.new_empty_vault,
      Bucket.isEmpty, Bucket.amount]

theorem inv_exchange {rs : ResourceSpecifier} {badgeA : ResourceAddress}
    {e : Escrow} {b : Bucket} {out : ExchangeOut}
    (hI : EscrowInv rs badgeA e) (h : e.exchange b = .ok out) :
    EscrowInv rs badgeA out.escrow := by
  obtain ⟨hrs, hnft, hWF, _⟩ := hI
  obtain ⟨_, hoff, hrs2, hnft2, taken, hput, hdisj⟩ := exchange_ok_shape h
  refine ⟨hrs2.trans hrs, hnft2.trans hnft, ?_,
    Or.inl (hoff ▸ Bucket.take_all_snd_isEmpty _)⟩
  unfold Escrow.requestedWF at hWF ⊢
  rcases hdisj with ⟨X, R, hspec, htake⟩ | ⟨Z, i, hspec, htake⟩
  · rw [hspec] at hWF
    obtain ⟨hR, c, hc, hv⟩ := hWF
    obtain ⟨s, hbc, _, _, htk, _⟩ := take_eq_some htake
    rw [hv, htk] at hput
    simp only [Bucket.put] at hput
    split_ifs at hput with he
    simp only [Option.some.injEq] at hput
    rw [hrs2, hspec]
    exact ⟨hR, c + R, add_nonneg hc hR, hput.symm⟩
  · rw [hspec] at hWF
    obtain ⟨vs, hv⟩ := hWF
    obtain ⟨s, hbc, hmem, htk, _⟩ := take_nf_eq_some htake
    rw [hv, htk] at hput
    simp only [Bucket.put] at hput
    split_ifs at hput with he
    simp only [Option.some.injEq] at hput
    rw [hrs2, hspec]
    exact ⟨vs ∪ {i}, hput.symm⟩

theorem inv_withdraw {rs : ResourceSpecifier} {badgeA : ResourceAddress}
    {e : Escrow} {nb : Bucket} {w : AuthOut}
    (hI : EscrowInv rs badgeA e) (h : e.withdraw_resource nb = .ok w) :
    EscrowInv rs badgeA w.escrow := by
  obtain ⟨hrs, hnft, hWF, _⟩ := hI
  obtain ⟨_, hesc, _⟩ := withdraw_ok_shape h
  rw [hesc]
  refine ⟨hrs, hnft, ?_, Or.inr (Bucket.take_all_snd_isEmpty _)⟩
  unfold Escrow.requestedWF at hWF ⊢
  rcases hrs' : e.requested_resource with ⟨a, r⟩ | ⟨a, i⟩ <;> rw [hrs'] at hWF
  · obtain ⟨hR, c, _, hv⟩ := hWF
    exact ⟨hR, 0, le_refl 0, by rw [hv]; rfl⟩
  · obtain ⟨vs, hv⟩ := hWF
    exact ⟨∅, by rw [hv]; rfl⟩

theorem inv_cancel {rs : ResourceSpecifier} {badgeA : ResourceAddress}
    {e : Escrow} {nb : Bucket} {c : AuthOut}
    (hI : EscrowInv rs badgeA e) (h : e.cancel_escrow nb = .ok c) :
    EscrowInv rs badgeA c.escrow := by
  obtain ⟨hrs, hnft, hWF, _⟩ := hI
  obtain ⟨_, hesc, _⟩ := cancel_ok_shape h
  rw [hesc]
  exact ⟨hrs, hnft, hWF, Or.inl (Bucket.take_all_snd_isEmpty _)⟩

theorem reachable_inv {rs : ResourceSpecifier} {offered : Bucket}
    {badgeA : ResourceAddress} {badgeId : NonFungibleLocalId}
    (hA : rs.amountNonneg) :
    ∀ e, Reachable (instantiate_escrow rs offered badgeA badgeId).1 e →
      EscrowInv rs badgeA e := by
  intro e h
  induction h with
  | init => exact inv_init offered badgeA badgeId hA
  | exchangeOk _ hstep ih => exact inv_exchange ih hstep
  | withdrawOk _ hstep ih => exact inv_withdraw ih hstep
  | cancelOk _ hstep ih => exact inv_cancel ih hstep

theorem exchange_ok_post {rs : ResourceSpecifier} {badgeA : ResourceAddress}
    {e : Escrow} {b : Bucket} {out : ExchangeOut}
    (hI : EscrowInv rs badgeA e) (h : e.exchange b = .ok out) :
    out.escrow.offered_resource.isEmpty ∧
    (rs.nontrivial → ¬ out.escrow.requested_resource_vault.isEmpty) := by
  obtain ⟨hrs, _, hWF, _⟩ := hI
  obtain ⟨_, hoff, hrs2, _, taken, hput, hdisj⟩ := exchange_ok_shape h
  refine ⟨hoff ▸ Bucket.take_all_snd_isEmpty _, ?_⟩
  intro hnt
  unfold Escrow.requestedWF at hWF
  rcases hdisj with ⟨X, R, hspec, htake⟩ | ⟨Z, i, hspec, htake⟩
  · rw [hspec] at hWF
    obtain ⟨hR, c, hc, hv⟩ := hWF
    obtain ⟨s, _, _, _, htk, _⟩ := take_eq_some htake
    rw [hv, htk] at hput
    simp only [Bucket.put] at hput
    split_ifs at hput with he
    simp only [Option.some.injEq] at hput
    have hnt' : (0:ℤ) < R := by
      rw [← hrs, hspec] at hnt
      exact hnt
    rw [← hput]
    unfold Bucket.isEmpty Bucket.amount
    simp only
    omega
  · rw [hspec] at hWF
    obtain ⟨vs, hv⟩ := hWF
    obtain ⟨s, _, hmem, htk, _⟩ := take_nf_eq_some htake
    rw [hv, htk] at hput
    simp only [Bucket.put] at hput
    split_ifs at hput with he
    simp only [Option.some.injEq] at hput
    rw [← hput]
    unfold Bucket.isEmpty Bucket.amount
    simp only [Int.natCast_eq_zero, Finset.card_eq_zero]
    intro hcontra
    have : i ∈ vs ∪ {i} := Finset.mem_union_right _ (Finset.mem_singleton_self i)
    rw [hcontra] at this
    exact Finset.not_mem_empty i this

theorem exchange_preserves_nonempty {rs : ResourceSpecifier}
    {badgeA : ResourceAddress} {e : Escrow} {b : Bucket} {out : ExchangeOut}
    (hI : EscrowInv rs badgeA e)
    (hne : ¬ e.requested_resource_vault.isEmpty)
    (h : e.exchange b = .ok out) :
    ¬ out.escrow.requested_resource_vault.isEmpty := by
  obtain ⟨hrs, _, hWF, _⟩ := hI
  obtain ⟨_, _, hrs2, _, taken, hput, hdisj⟩ := exchange_ok_shape h
  unfold Escrow.requestedWF at hWF
  rcases hdisj with ⟨X, R, hspec, htake⟩ | ⟨Z, i, hspec, htake⟩
  · rw [hspec] at hWF
    obtain ⟨hR, c, hc, hv⟩ := hWF
    obtain ⟨s, _, _, _, htk, _⟩ := take_eq_some htake
    rw [hv, htk] at hput
    simp only [Bucket.put] at hput
    split_ifs at hput with he
    simp only [Option.some.injEq] at hput
    rw [hv] at hne
    unfold Bucket.isEmpty Bucket.amount at hne
    simp only at hne
    rw [← hput]
    unfold Bucket.isEmpty Bucket.amount
    simp only
    omega
  · rw [hspec] at hWF
    obtain ⟨vs, hv⟩ := hWF
    obtain ⟨s, _, hmem, htk, _⟩ := take_nf_eq_some htake
    rw [hv, htk] at hput
    simp only [Bucket.put] at hput
    split_ifs at hput with he
    simp only [Option.some.injEq] at hput
    rw [← hput]
    unfold Bucket.isEmpty Bucket.amount
    simp only [Int.natCast_eq_zero, Finset.card_eq_zero]
    intro hcontra
    have : i ∈ vs ∪ {i} := Finset.mem_union_right _ (Finset.mem_singleton_self i)
    rw [hcontra] at this
    exact Finset.not_mem_empty i this

/-- C7 (amended): in every state reachable from instantiation with a
well-formed request, at most one of the two custody vaults is non-empty and
the stored specifier and badge address are exactly the instantiation-time
ones; a successful satisfy leaves the offered vault empty and — provided the
request is non-trivial (a positive fungible amount, or any non-fungible item)
— the requested vault non-empty; the requested vault then stays non-empty
under further successful exchanges and is untouched by cancel, i.e. until a
withdrawal empties it.  (The original claim, without the non-triviality
proviso, fails for a zero-amount fungible request: see the counterexample.) -/
theorem C7_invariants_amended :
    ∀ (rs : ResourceSpecifier) (offered : Bucket) (badgeA : ResourceAddress)
        (badgeId : NonFungibleLocalId), rs.amountNonneg →
      (∀ e, Reachable (instantiate_escrow rs offered badgeA badgeId).1 e →
        (e.offered_resource.isEmpty ∨ e.requested_resource_vault.isEmpty) ∧
        e.requested_resource = rs ∧ e.escrow_nft = badgeA) ∧
      (∀ e b out, Reachable (instantiate_escrow rs offered badgeA badgeId).1 e →
        e.exchange b = .ok out →
        out.escrow.offered_resource.isEmpty ∧
        (rs.nontrivial → ¬ out.escrow.requested_resource_vault.isEmpty)) ∧
      (∀ e b out, Reachable (instantiate_escrow rs offered badgeA badgeId).1 e →
        ¬ e.requested_resource_vault.isEmpty → e.exchange b = .ok out →
        ¬ out.escrow.requested_resource_vault.isEmpty) ∧
      (∀ e nb c, Reachable (instantiate_escrow rs offered badgeA badgeId).1 e →
        e.cancel_escrow nb = .ok c →
        c.escrow.requested_resource_vault = e.requested_resource_vault) := by
  intro rs offered badgeA badgeId hA
  refine ⟨?_, ?_, ?_, ?_⟩
  · intro e h
    obtain ⟨h1, h2, _, h4⟩ := reachable_inv hA e h
    exact ⟨h4, h1, h2⟩
  · intro e b out h hok
    exact exchange_ok_post (reachable_inv hA e h) hok
  · intro e b out h hne hok
    exact exchange_preserves_nonempty (reachable_inv hA e h) hne hok
  · intro e nb c h hok
    rw [(cancel_ok_shape hok).2.1]

/-- C7 counterexample: with a zero-amount fungible request, a successful
satisfy call leaves the requested-asset vault EMPTY, refuting the claim that
after satisfaction the requested slot is non-empty until withdrawal (the
post-satisfy state is reachable and has both vaults empty). -/
theorem C7_counterexample_zero_amount_request :
    ∃ out, ((instantiate_escrow (.Fungible 2 0) ⟨1, .fungible 5⟩ 7 3).1).exchange
        ⟨2, .fungible 0⟩ = .ok out ∧
      out.escrow.requested_resource_vault.isEmpty ∧
      out.escrow.offered_resource.isEmpty :=
  ⟨⟨⟨.Fungible 2 0, ⟨1, .fungible 0⟩, ⟨2, .fungible 0⟩, 7⟩,
    ⟨1, .fungible 5⟩, ⟨2, .fungible 0⟩⟩, rfl, by decide, by decide⟩

/-- Witness for C7 (amended) at concrete inputs. -/
theorem C7_invariants_amended_witness :
    ResourceSpecifier.amountNonneg (.Fungible 2 100) ∧
    ((sampleEscrow.offered_resource.isEmpty ∨
        sampleEscrow.requested_resource_vault.isEmpty) ∧
      sampleEscrow.requested_resource = .Fungible 2 100 ∧
      sampleEscrow.escrow_nft = 7) ∧
    (Bucket.isEmpty
        (ExchangeOut.escrow ⟨⟨.Fungible 2 100, ⟨1, .fungible 0⟩,
          ⟨2, .fungible 100⟩, 7⟩, ⟨1, .fungible 5⟩,
          ⟨2, .fungible 50⟩⟩).offered_resource ∧
      (ResourceSpecifier.nontrivial (.Fungible 2 100) →
        ¬ Bucket.isEmpty
            (ExchangeOut.escrow ⟨⟨.Fungible 2 100, ⟨1, .fungible 0⟩,
              ⟨2, .fungible 100⟩, 7⟩, ⟨1, .fungible 5⟩,
              ⟨2, .fungible 50⟩⟩).requested_resource_vault)) :=
  ⟨(by decide : (0:ℤ) ≤ 100),
   (C7_invariants_amended (.Fungible 2 100) ⟨1, .fungible 5⟩ 7 3
      (by decide : (0:ℤ) ≤ 100)).1 sampleEscrow Reachable.init,
   (C7_invariants_amended (.Fungible 2 100) ⟨1, .fungible 5⟩ 7 3
      (by decide : (0:ℤ) ≤ 100)).2.1 sampleEscrow ⟨2, .fungible 150⟩ _
     Reachable.init rfl⟩

/-- C8 (amended): a second exchange call, after a prior successful one has
emptied the offered vault, with a bucket that again satisfies the checked
preconditions, still transfers the requested amount (or item) out of the
caller's bucket into the requested-asset vault and returns the now-empty
offer: the second caller pays the full requested price and receives nothing.
In the fungible case the requested vault then holds twice the requested
amount — strictly more than the single requested amount whenever that amount
is positive; with a zero requested amount, or a non-fungible request (where
the vault still holds just the one item), it does not grow beyond the single
request (see the counterexample). -/
theorem C8_second_exchange_still_charges_amended :
    (∀ (X badgeA : ResourceAddress) (badgeId : NonFungibleLocalId)
        (R S1 S2 : ℤ) (offered : Bucket), 0 ≤ R → R ≤ S1 → R ≤ S2 →
      ∃ out out2,
        ((instantiate_escrow (.Fungible X R) offered badgeA badgeId).1).exchange
            ⟨X, .fungible S1⟩ = .ok out ∧
        out.escrow.exchange ⟨X, .fungible S2⟩ = .ok out2 ∧
        out2.bucketRest = ⟨X, .fungible (S2 - R)⟩ ∧
        out2.returned.isEmpty ∧
        out2.escrow.requested_resource_vault = ⟨X, .fungible (R + R)⟩ ∧
        (0 < R → R < R + R)) ∧
    (∀ (Z badgeA : ResourceAddress) (badgeId nfId : NonFungibleLocalId)
        (ids ids2 : Finset ℕ) (offered : Bucket), nfId ∈ ids → nfId ∈ ids2 →
      ∃ out out2,
        ((instantiate_escrow (.NonFungible Z nfId) offered badgeA badgeId).1).exchange
            ⟨Z, .nonFungible ids⟩ = .ok out ∧
        out.escrow.exchange ⟨Z, .nonFungible ids2⟩ = .ok out2 ∧
        out2.bucketRest = ⟨Z, .nonFungible (ids2.erase nfId)⟩ ∧
        out2.returned.isEmpty ∧
        out2.escrow.requested_resource_vault = ⟨Z, .nonFungible {nfId}⟩) := by
  constructor
  · intro X badgeA badgeId R S1 S2 offered hR hS1 hS2
    refine ⟨_, _, exchange_fungible_ok rfl rfl hR hS1,
      exchange_fungible_ok rfl rfl hR hS2, rfl, ?_, ?_, ?_⟩
    · rw [Bucket.take_all_fst]
      exact Bucket.take_all_snd_isEmpty _
    · simp
    · omega
  · intro Z badgeA badgeId nfId ids ids2 offered hmem hmem2
    refine ⟨_, _, exchange_nonfungible_ok rfl rfl hmem,
      exchange_nonfungible_ok rfl rfl hmem2, rfl, ?_, ?_⟩
    · rw [Bucket.take_all_fst]
      exact Bucket.take_all_snd_isEmpty _
    · simp

/-- C8 counterexample: with requested amount 0, a second precondition-
satisfying exchange leaves the requested vault holding 0 — not strictly more
than the single requested amount — refuting the unqualified claim that the
requested custody slot accumulates beyond the single requested amount. -/
theorem C8_counterexample_zero_amount_no_accumulation :
    ∃ out out2,
      ((instantiate_escrow (.Fungible 2 0) ⟨1, .fungible 5⟩ 7 3).1).exchange
          ⟨2, .fungible 4⟩ = .ok out ∧
      out.escrow.exchange ⟨2, .fungible 4⟩ = .ok out2 ∧
      ¬ ((0:ℤ) < out2.escrow.requested_resource_vault.amount) :=
  ⟨⟨⟨.Fungible 2 0, ⟨1, .fungible 0⟩, ⟨2, .fungible 0⟩, 7⟩,
    ⟨1, .fungible 5⟩, ⟨2, .fungible 4⟩⟩,
   ⟨⟨.Fungible 2 0, ⟨1, .fungible 0⟩, ⟨2, .fungible 0⟩, 7⟩,
    ⟨1, .fungible 0⟩, ⟨2, .fungible 4⟩⟩,
   rfl, rfl, by decide⟩

/-- Witness for C8 (amended) at concrete inputs. -/
theorem C8_second_exchange_still_charges_amended_witness :
    ((0:ℤ) ≤ 100 ∧ (100:ℤ) ≤ 150 ∧ (100:ℤ) ≤ 130 ∧
      ∃ out out2,
        ((instantiate_escrow (.Fungible 2 100) ⟨1, .fungible 5⟩ 7 3).1).exchange
            ⟨2, .fungible 150⟩ = .ok out ∧
        out.escrow.exchange ⟨2, .fungible 130⟩ = .ok out2 ∧
        out2.bucketRest = ⟨2, .fungible (130 - 100)⟩ ∧
        out2.returned.isEmpty ∧
        out2.escrow.requested_resource_vault = ⟨2, .fungible (100 + 100)⟩ ∧
        ((0:ℤ) < 100 → (100:ℤ) < 100 + 100)) ∧
    ((9:ℕ) ∈ ({4, 9} : Finset ℕ) ∧ (9:ℕ) ∈ ({9, 12} : Finset ℕ) ∧
      ∃ out out2,
        ((instantiate_escrow (.NonFungible 2 9) ⟨1, .fungible 5⟩ 7 3).1).exchange
            ⟨2, .nonFungible {4, 9}⟩ = .ok out ∧
        out.escrow.exchange ⟨2, .nonFungible {9, 12}⟩ = .ok out2 ∧
        out2.bucketRest = ⟨2, .nonFungible (Finset.erase {9, 12} 9)⟩ ∧
        out2.returned.isEmpty ∧
        out2.escrow.requested_resource_vault = ⟨2, .nonFungible {9}⟩) :=
  ⟨⟨by decide, by decide, by decide,
    C8_second_exchange_still_charges_amended.1 2 7 3 100 150 130
      ⟨1, .fungible 5⟩ (by decide) (by decide) (by decide)⟩,
   ⟨by decide, by decide,
    C8_second_exchange_still_charges_amended.2 2 7 3 9 {4, 9} {9, 12}
      ⟨1, .fungible 5⟩ (by decide) (by decide)⟩⟩

/-- C9: when the escrow is created with a fungible request of amount zero,
any caller presenting any bucket of the requested asset kind — including an
empty one — passes both precondition checks of exchange, has nothing taken
from the bucket (it keeps its full quantity `s`), and receives the entire
offered asset; the requested vault stays empty. -/
theorem C9_zero_amount_request_is_claimable_free :
    ∀ (X badgeA : ResourceAddress) (badgeId : NonFungibleLocalId)
        (s : ℤ) (offered : Bucket), 0 ≤ s →
      ∃ out,
        ((instantiate_escrow (.Fungible X 0) offered badgeA badgeId).1).exchange
            ⟨X, .fungible s⟩ = .ok out ∧
        out.bucketRest = ⟨X, .fungible s⟩ ∧
        out.returned = offered ∧
        out.escrow.requested_resource_vault.isEmpty ∧
        out.escrow.offered_resource.isEmpty := by
  intro X badgeA badgeId s offered hs
  refine ⟨_, exchange_fungible_ok rfl rfl (le_refl 0) hs, ?_,
    Bucket.take_all_fst _, ?_, Bucket.take_all_snd_isEmpty _⟩
  · simp
  · simp [Bucket.isEmpty, Bucket.amount]

/-- Witness for C9: claiming the offer with an empty bucket. -/
theorem C9_zero_amount_request_is_claimable_free_witness :
    (0:ℤ) ≤ 0 ∧
    ∃ out,
      ((instantiate_escrow (.Fungible 2 0) ⟨1, .fungible 5⟩ 7 3).1).exchange
          ⟨2, .fungible 0⟩ = .ok out ∧
      out.bucketRest = ⟨2, .fungible 0⟩ ∧
      out.returned = ⟨1, .fungible 5⟩ ∧
      out.escrow.requested_resource_vault.isEmpty ∧
      out.escrow.offered_resource.isEmpty :=
  ⟨by decide,
   C9_zero_amount_request_is_claimable_free 2 7 3 0 ⟨1, .fungible 5⟩ (by decide)⟩

/-- C10: `withdraw_resource` takes the badge bucket by value and neither
burns it (`burned = []`) nor returns it: its only output bucket is the
requested-asset vault's contents, which is of a different resource kind than
the badge.  The presented credential is therefore consumed by the method — it
is in no output channel, so the caller cannot present it again. -/
theorem C10_withdraw_consumes_badge_without_burning :
    ∀ (e : Escrow) (nb : Bucket),
      nb.resource_address = e.escrow_nft → 0 < nb.amount →
      e.requested_resource_vault.resource_address ≠ e.escrow_nft →
      ∃ w, e.withdraw_resource nb = .ok w ∧
        w.burned = [] ∧
        w.returned = e.requested_resource_vault ∧
        w.returned.resource_address ≠ e.escrow_nft := by
  intro e nb haddr hamt hne
  refine ⟨_, withdraw_ok haddr hamt, rfl, Bucket.take_all_fst _, ?_⟩
  rw [Bucket.take_all_fst]
  exact hne

/-- Witness for C10 on the sample escrow. -/
theorem C10_withdraw_consumes_badge_without_burning_witness :
    Bucket.resource_address ⟨7, .nonFungible {3}⟩ = sampleEscrow.escrow_nft ∧
    0 < Bucket.amount ⟨7, .nonFungible {3}⟩ ∧
    sampleEscrow.requested_resource_vault.resource_address ≠
      sampleEscrow.escrow_nft ∧
    ∃ w, sampleEscrow.withdraw_resource ⟨7, .nonFungible {3}⟩ = .ok w ∧
      w.burned = [] ∧
      w.returned = sampleEscrow.requested_resource_vault ∧
      w.returned.resource_address ≠ sampleEscrow.escrow_nft :=
  ⟨by decide, by decide, by decide,
   C10_withdraw_consumes_badge_without_burning sampleEscrow
     ⟨7, .nonFungible {3}⟩ (by decide) (by decide) (by decide)⟩
